import Mathlib

/-!
Verification of the goplex formula library.

Part 1 models the seven Go formula functions over an exact-arithmetic value
domain: a double is either NaN, +Inf, -Inf, or a finite rational.  Finite
arithmetic is exact (no rounding, and hence also no overflow), while the
IEEE-754 special-value propagation rules (NaN and infinity arithmetic,
comparisons that are false on NaN) are modelled faithfully, matching Go
float64 semantics and the documented special cases of math.Sqrt and
math.Log.  Because exact finite arithmetic cannot overflow, Part 1 is used
only for claims about guard and branch structure, returned expressions, and
special-value propagation — never to bound the range of a result on finite
inputs.  The transcendental primitives math.Sqrt, math.Log and the constant
math.Pi are abstract parameters (a `MathOps` record), constrained only by
the special cases Go documents.

Part 2 is an exact model of binary64 round-to-nearest-even arithmetic on
positive values, used to settle the bit-for-bit numeric claims about the
constants table (which the Go code computes as `mantissa * math.Pow(10, e)`)
and about the perihelion-shift regression value.
-/

namespace Goplex

/-- Model of a Go float64 value without rounding: NaN, the two infinities,
or an exact finite rational. -/
inductive Dbl where
  | nan : Dbl
  | pinf : Dbl
  | ninf : Dbl
  | fin : ℚ → Dbl
deriving DecidableEq

namespace Dbl

/-- IEEE negation. -/
def neg : Dbl → Dbl
  | nan => nan
  | pinf => ninf
  | ninf => pinf
  | fin a => fin (-a)

/-- IEEE addition (exact on finite values; NaN propagates; opposite
infinities give NaN). -/
def add : Dbl → Dbl → Dbl
  | nan, _ => nan
  | _, nan => nan
  | pinf, ninf => nan
  | ninf, pinf => nan
  | pinf, _ => pinf
  | _, pinf => pinf
  | ninf, _ => ninf
  | _, ninf => ninf
  | fin a, fin b => fin (a + b)

/-- IEEE subtraction, as addition of the negation. -/
def sub (a b : Dbl) : Dbl := a.add b.neg

/-- IEEE multiplication (exact on finite values; infinity times zero is
NaN; signs of infinities follow the sign rule). -/
def mul : Dbl → Dbl → Dbl
  | nan, _ => nan
  | _, nan => nan
  | pinf, pinf => pinf
  | pinf, ninf => ninf
  | ninf, pinf => ninf
  | ninf, ninf => pinf
  | pinf, fin b => if b = 0 then nan else if 0 < b then pinf else ninf
  | fin a, pinf => if a = 0 then nan else if 0 < a then pinf else ninf
  | ninf, fin b => if b = 0 then nan else if 0 < b then ninf else pinf
  | fin a, ninf => if a = 0 then nan else if 0 < a then ninf else pinf
  | fin a, fin b => fin (a * b)

/-- IEEE division (exact on finite values with nonzero divisor; a nonzero
finite value divided by zero is a signed infinity; zero divided by zero and
infinity divided by infinity are NaN; a finite value divided by an infinity
is zero).  The model has a single unsigned zero. -/
def div : Dbl → Dbl → Dbl
  | nan, _ => nan
  | _, nan => nan
  | pinf, pinf => nan
  | pinf, ninf => nan
  | ninf, pinf => nan
  | ninf, ninf => nan
  | pinf, fin b => if 0 ≤ b then pinf else ninf
  | ninf, fin b => if 0 ≤ b then ninf else pinf
  | fin _, pinf => fin 0
  | fin _, ninf => fin 0
  | fin a, fin b =>
      if b = 0 then (if a = 0 then nan else if 0 < a then pinf else ninf)
      else fin (a / b)

/-- Model of Go math.Sqrt: Sqrt(NaN) = NaN, Sqrt(+Inf) = +Inf,
Sqrt(x) = NaN for x < 0, Sqrt(0) = 0; on positive finite input the result is
the abstract function `s`. -/
def sqrt (s : ℚ → ℚ) : Dbl → Dbl
  | nan => nan
  | pinf => pinf
  | ninf => nan
  | fin a => if a < 0 then nan else if a = 0 then fin 0 else fin (s a)

/-- Model of Go math.Log: Log(NaN) = NaN, Log(+Inf) = +Inf,
Log(x) = NaN for x < 0, Log(0) = -Inf; on positive finite input the result
is the abstract function `lg`. -/
def log (lg : ℚ → ℚ) : Dbl → Dbl
  | nan => nan
  | pinf => pinf
  | ninf => nan
  | fin a => if a < 0 then nan else if a = 0 then ninf else fin (lg a)

/-- IEEE equality test (Go ==): false whenever either side is NaN. -/
def beq : Dbl → Dbl → Bool
  | nan, _ => false
  | _, nan => false
  | pinf, pinf => true
  | ninf, ninf => true
  | fin a, fin b => decide (a = b)
  | _, _ => false

/-- IEEE strict less-than (Go <): false whenever either side is NaN. -/
def blt : Dbl → Dbl → Bool
  | nan, _ => false
  | _, nan => false
  | pinf, _ => false
  | ninf, ninf => false
  | ninf, _ => true
  | fin _, pinf => true
  | fin _, ninf => false
  | fin a, fin b => decide (a < b)

/-- IEEE less-or-equal (Go <=): false whenever either side is NaN. -/
def ble : Dbl → Dbl → Bool
  | nan, _ => false
  | _, nan => false
  | pinf, pinf => true
  | pinf, _ => false
  | ninf, _ => true
  | fin _, pinf => true
  | fin _, ninf => false
  | fin a, fin b => decide (a ≤ b)

end Dbl

/-- Exact rational value of the speed-of-light constant `c = 299792458.0`. -/
def cVal : ℚ := 299792458

/-- Exact rational value of `universalGravitationConstant = 0.0000000000667408`. -/
def gVal : ℚ := 667408 / 10 ^ 16

/-- Exact rational value of the decimal `6.626069934e-34`
(`planckConstant` in the source is this mantissa times `math.Pow(10, -34)`). -/
def hVal : ℚ := 6626069934 / 10 ^ 43

/-- Exact rational value of the decimal `8.6173303e-5`
(`boltzmannConstantEv` in the source is this mantissa times `math.Pow(10, -5)`). -/
def kEvVal : ℚ := 86173303 / 10 ^ 12

/-- Exact rational value of the decimal `8.854187817e-12`. -/
def e0Val : ℚ := 8854187817 / 10 ^ 21

/-- Exact rational value of the decimal `5.97237e24`. -/
def massVal : ℚ := 597237 * 10 ^ 19

/-- Seconds in a single Earth day, `secondsInADay = 86400.0`. -/
def secondsInADay : Dbl := .fin 86400

/-- Speed of light in a vacuum, in m/s. -/
def c : Dbl := .fin cVal

/-- Universal gravitational constant, in m^3 kg^-1 s^-2. -/
def universalGravitationConstant : Dbl := .fin gVal

/-- Planck constant, in Joule seconds (exact-arithmetic model value). -/
def planckConstant : Dbl := .fin hVal

/-- Boltzmann constant, in eV per Kelvin (exact-arithmetic model value). -/
def boltzmannConstantEv : Dbl := .fin kEvVal

/-- Vacuum permittivity, in Farads per metre (exact-arithmetic model value). -/
def vacuumPermittivity : Dbl := .fin e0Val

/-- Mass of the planet Earth, in kilograms (exact-arithmetic model value). -/
def massOfTheEarth : Dbl := .fin massVal

/-- Abstract interpretations of the Go math primitives used by the formula
functions: math.Sqrt and math.Log on positive finite arguments, and the
constant math.Pi. -/
structure MathOps where
  sqrt : ℚ → ℚ
  log : ℚ → ℚ
  pi : ℚ

/-- Concrete instantiation of `MathOps` used to evaluate theorems on
concrete inputs (the abstract primitives may be interpreted arbitrarily;
only `0 < pi` is ever assumed). -/
def opsQ : MathOps := ⟨fun x => x, fun x => x, 3⟩

/-- Tsiolkovsky rocket equation, translated from `tsiolkovskyDeltaV`. -/
def tsiolkovskyDeltaV (ops : MathOps) (Ve m0 mf : Dbl) : Dbl :=
  if mf.beq (.fin 0) then .fin 0
  else
    let ratioOfInitialToDryMass := m0.div mf
    let nlogOfMassRatio := Dbl.log ops.log ratioOfInitialToDryMass
    let deltaV := Ve.mul nlogOfMassRatio
    deltaV

/-- Energy of a photon, translated from `photonEnergy`. -/
def photonEnergy (l : Dbl) : Dbl :=
  if l.beq (.fin 0) then .fin 0
  else (planckConstant.mul c).div l

/-- Thermal velocity of a heated gas, translated from
`thermalVelocityOfHeatedGas`. -/
def thermalVelocityOfHeatedGas (ops : MathOps) (g T m : Dbl) : Dbl :=
  if T.blt (.fin 0) || g.beq (.fin 0) || m.beq (.fin 0) then .fin 0
  else
    let inverseG := (Dbl.fin 1).div g
    let boltzRatioToMass := (((Dbl.fin 3).mul boltzmannConstantEv).mul T).div m
    let squareOfBoltzRatio := Dbl.sqrt ops.sqrt boltzRatioToMass
    let specificImpulse := inverseG.mul squareOfBoltzRatio
    specificImpulse

/-- Lorentz factor, translated from `lorentzFactor`. -/
def lorentzFactor (ops : MathOps) (v : Dbl) : Dbl :=
  if v.beq c then .fin 0
  else
    let squareFactor := (Dbl.fin 1).sub ((v.mul v).div (c.mul c))
    let sqrtFactor := Dbl.sqrt ops.sqrt squareFactor
    if sqrtFactor.beq (.fin 0) then .fin 0
    else (Dbl.fin 1).div sqrtFactor

/-- Abraham-Lorentz force, translated from `abrahamLorentzForce`. -/
def abrahamLorentzForce (ops : MathOps) (q e0 a : Dbl) : Dbl :=
  if e0.beq (.fin 0) then .fin 0
  else
    let squareOfCharge := q.mul q
    let chargedFieldValue :=
      (((((Dbl.fin 6).mul (.fin ops.pi)).mul e0).mul c).mul c).mul c
    let ratioOfChargeToField := squareOfCharge.div chargedFieldValue
    ratioOfChargeToField.mul a

/-- Perihelion shift of an orbit, translated from `perihelionShift`. -/
def perihelionShift (ops : MathOps) (L T e : Dbl) : Dbl :=
  let cInKmPerSecond := c.mul (.fin 1000)
  let dividend :=
    (((((Dbl.fin 24).mul (.fin ops.pi)).mul (.fin ops.pi)).mul (.fin ops.pi)).mul L).mul L
  let divisor :=
    (((T.mul T).mul cInKmPerSecond).mul cInKmPerSecond).mul
      ((Dbl.fin 1).sub (e.mul e))
  if divisor.beq (.fin 0) then .fin 0
  else dividend.div divisor

/-- Schwarzschild radius, translated from `schwarzschildRadius`. -/
def schwarzschildRadius (M : Dbl) : Dbl :=
  if M.ble (.fin 0) then .fin 0
  else
    let speedOfLightInVacSquared := c.mul c
    let ratioOfMassToGravity := ((Dbl.fin 2).mul universalGravitationConstant).mul M
    ratioOfMassToGravity.div speedOfLightInVacSquared

/-!
Part 2: exact model of IEEE-754 binary64 arithmetic on positive normal
values.  A double is a pair `(m, e) : ℕ × ℤ` denoting `m * 2 ^ e`; the
rounding function always produces the canonical mantissa `2^52 ≤ m < 2^53`,
so equality of doubles is equality of pairs.  Multiplication, division and
subtraction are the exact rational operation followed by rounding to
nearest, ties to even — exactly the IEEE-754 semantics Go float64
arithmetic has (all values in the claims settled with this model are
positive and normal, so signs, zeros, subnormals and overflow never
arise).  Go `math.Pow(10, n)` is modelled by its actual implementation:
repeated squaring of the fraction returned by `Frexp(10)` with a separately
tracked binary exponent. -/
namespace FP

/-- Number of binary digits of `n < 2 ^ fuel` (fuel-based recursion so that
the kernel can evaluate it with shallow call depth). -/
def bitLenSmall : ℕ → ℕ → ℕ
  | 0, _ => 0
  | fuel + 1, n => if n = 0 then 0 else bitLenSmall fuel (n / 2) + 1

/-- Number of binary digits of `n`, processed 64 bits per recursion step so
that kernel evaluation stays shallow. -/
def bitLen : ℕ → ℕ → ℕ
  | 0, _ => 0
  | fuel + 1, n => if n < 2 ^ 64 then bitLenSmall 64 n else bitLen fuel (n / 2 ^ 64) + 64

/-- Number of binary digits, with fuel covering numbers below `2 ^ 4096`. -/
def bits (n : ℕ) : ℕ := bitLen 64 n

/-- Tests `2 ^ k ≤ n / d` for positive naturals `n`, `d`. -/
def geTwoPow (n d : ℕ) (k : ℤ) : Bool :=
  if 0 ≤ k then decide (d * 2 ^ k.toNat ≤ n) else decide (d ≤ n * 2 ^ (-k).toNat)

/-- Rounds the positive rational `n / d` to the nearest binary64 value
(round to nearest, ties to even), returned as a canonical pair `(m, e)`
with `2^52 ≤ m < 2^53` and value `m * 2 ^ e`. -/
def roundRat (n d : ℕ) : ℕ × ℤ :=
  if n = 0 then (0, 0)
  else
    let B : ℤ := (bits n : ℤ) - (bits d : ℤ)
    let E : ℤ := if geTwoPow n d B then B else B - 1
    let e : ℤ := E - 52
    let N : ℕ := if e ≤ 0 then n * 2 ^ (-e).toNat else n
    let D : ℕ := if e ≤ 0 then d else d * 2 ^ e.toNat
    let q : ℕ := N / D
    let r : ℕ := N % D
    let m : ℕ :=
      if 2 * r < D then q
      else if D < 2 * r then q + 1
      else if q % 2 = 0 then q else q + 1
    if m = 2 ^ 53 then (2 ^ 52, e + 1) else (m, e)

/-- Binary64 value of a natural-number literal. -/
def mkD (n : ℕ) : ℕ × ℤ := roundRat n 1

/-- Binary64 value of the decimal literal `n / 10 ^ k` (the nearest double,
which is how Go converts decimal source literals). -/
def decLit (n k : ℕ) : ℕ × ℤ := roundRat n (10 ^ k)

/-- IEEE-754 binary64 multiplication: exact product, then rounding. -/
def fmul (a b : ℕ × ℤ) : ℕ × ℤ :=
  let r := roundRat (a.1 * b.1) 1
  (r.1, r.2 + a.2 + b.2)

/-- IEEE-754 binary64 division: exact quotient, then rounding. -/
def fdiv (a b : ℕ × ℤ) : ℕ × ℤ :=
  let r := roundRat a.1 b.1
  (r.1, r.2 + a.2 - b.2)

/-- IEEE-754 binary64 subtraction for `a ≥ b ≥ 0`: exact difference, then
rounding. -/
def fsub (a b : ℕ × ℤ) : ℕ × ℤ :=
  let e : ℤ := if a.2 ≤ b.2 then a.2 else b.2
  let A := a.1 * 2 ^ (a.2 - e).toNat
  let B := b.1 * 2 ^ (b.2 - e).toNat
  let r := roundRat (A - B) 1
  (r.1, r.2 + e)

/-- Strict comparison of two nonnegative binary64 values. -/
def fblt (a b : ℕ × ℤ) : Bool :=
  if a.2 ≤ b.2 then decide (a.1 < b.1 * 2 ^ (b.2 - a.2).toNat)
  else decide (a.1 * 2 ^ (a.2 - b.2).toNat < b.1)

/-- The binary64 value 0.5, as a canonical pair. -/
def half : ℕ × ℤ := (2 ^ 52, -53)

/-- The repeated-squaring loop of Go `math.Pow` for a positive integer
exponent `i`: `a1 * 2 ^ ae` accumulates the result while `x1 * 2 ^ xe`
holds the current square, with `x1` kept in `[1/2, 1)` exactly as in the Go
source (`a1 *= x1`, `x1 *= x1` are float64 multiplications; `x1 += x1` is
exact).  Structured with fuel so the kernel can evaluate it; 64 units of
fuel cover every int64 exponent.  The catastrophic overflow guard on `xe`
in the Go source is never reached for the exponents used in this
repository (at most 34) and is not modelled. -/
def powLoop : ℕ → ℕ → ℕ × ℤ → ℤ → ℕ × ℤ → ℤ → (ℕ × ℤ) × ℤ
  | 0, _, a1, ae, _, _ => (a1, ae)
  | fuel + 1, i, a1, ae, x1, xe =>
    if i = 0 then (a1, ae)
    else
      let a1n := if i % 2 = 1 then fmul a1 x1 else a1
      let aen := if i % 2 = 1 then ae + xe else ae
      let x1s := fmul x1 x1
      let xes := 2 * xe
      let x1n := if fblt x1s half then (x1s.1, x1s.2 + 1) else x1s
      let xen := if fblt x1s half then xes - 1 else xes
      powLoop fuel (i / 2) a1n aen x1n xen

/-- Go `math.Pow(10, p)` or `math.Pow(10, -p)` (for `isNeg`), following the
Go implementation: `Frexp(10) = (0.625, 4)` (the canonical pair
`(5 * 2^50, -53)` with exponent 4), the repeated-squaring loop, inversion
for a negative exponent, and the final `Ldexp`. -/
def goPow10 (p : ℕ) (isNeg : Bool) : ℕ × ℤ :=
  let lr := powLoop 64 p (mkD 1) 0 (5 * 2 ^ 50, -53) 4
  if isNeg then
    let inv := fdiv (mkD 1) lr.1
    (inv.1, inv.2 - lr.2)
  else (lr.1.1, lr.1.2 + lr.2)

/-- Binary64 value of `secondsInADay = 86400.0`. -/
def secondsInADayF : ℕ × ℤ := mkD 86400

/-- Binary64 value of `c = 299792458.0`. -/
def cF : ℕ × ℤ := mkD 299792458

/-- Binary64 value of `universalGravitationConstant = 0.0000000000667408`. -/
def universalGravitationConstantF : ℕ × ℤ := decLit 667408 16

/-- Binary64 value of `planckConstant = 6.626069934 * math.Pow(10, -34)`,
computed exactly as the Go code computes it. -/
def planckConstantF : ℕ × ℤ := fmul (decLit 6626069934 9) (goPow10 34 true)

/-- Binary64 value of `boltzmannConstantJoules = 1.38064852 * math.Pow(10, -23)`,
computed exactly as the Go code computes it. -/
def boltzmannConstantJoulesF : ℕ × ℤ := fmul (decLit 138064852 8) (goPow10 23 true)

/-- Binary64 value of `boltzmannConstantEv = 8.6173303 * math.Pow(10, -5)`,
computed exactly as the Go code computes it. -/
def boltzmannConstantEvF : ℕ × ℤ := fmul (decLit 86173303 7) (goPow10 5 true)

/-- Binary64 value of `vacuumPermittivity = 8.854187817 * math.Pow(10, -12)`,
computed exactly as the Go code computes it. -/
def vacuumPermittivityF : ℕ × ℤ := fmul (decLit 8854187817 9) (goPow10 12 true)

/-- Binary64 value of `massOfTheEarth = 5.97237 * math.Pow(10, 24)`,
computed exactly as the Go code computes it. -/
def massOfTheEarthF : ℕ × ℤ := fmul (decLit 597237 5) (goPow10 24 false)

/-- The integer significand of the Go `math.Pi` untyped constant
(3.14159... with 200 fractional digits), so that `math.Pi = piNum / 10^200`
exactly. -/
def piNum : ℕ := 314159265358979323846264338327950288419716939937510582097494459230781640628620899862803482534211706798214808651328230664709384460955058223172535940812848111745028410270193852110555964462294895493038196

/-- The float64 constant that the Go compiler folds the untyped-constant
prefix `24 * math.Pi * math.Pi * math.Pi` of `perihelionShift` into:
the exact rational `24 * Pi^3` correctly rounded to binary64 (Go constant
arithmetic carries at least 256 bits of mantissa, far more than needed for
this conversion to round correctly). -/
def const24pi3F : ℕ × ℤ := roundRat (24 * piNum ^ 3) (10 ^ 600)

/-- The full float64 computation of the perihelion-shift regression test:
`perihelionShift(57909050.0, 47.362, 0.205630) * secondsInADay * 59.0`,
with every operation in source order (`cInKmPerSecond := c * 1000.0`,
`dividend := <folded 24π³> * L * L`,
`divisor := T*T*cKm*cKm*(1 - e*e)`, quotient, then the two test-harness
multiplications).  The divisor is nonzero, so the zero-divisor guard of
`perihelionShift` is not taken. -/
def perihelionTestF : ℕ × ℤ :=
  let LF := mkD 57909050
  let TF := decLit 47362 3
  let eF := decLit 205630 6
  let cInKmPerSecondF := fmul cF (mkD 1000)
  let dividendF := fmul (fmul const24pi3F LF) LF
  let divisorF :=
    fmul (fmul (fmul (fmul TF TF) cInKmPerSecondF) cInKmPerSecondF)
      (fsub (mkD 1) (fmul eF eF))
  let shiftF := fdiv dividendF divisorF
  fmul (fmul shiftF secondsInADayF) (mkD 59)

end FP

end Goplex

namespace Goplex

/-- Helper: evaluation of `lorentzFactor` on a finite argument that misses
the `v == c` guard, split on the sign of the square factor
`1 - v*v/(c*c)`. -/
theorem lorentzFactor_fin_eval (ops : MathOps) (x : ℚ) (hx : x ≠ cVal) :
    lorentzFactor ops (.fin x) =
      (if 1 - x * x / (cVal * cVal) < 0 then Dbl.nan
       else if 1 - x * x / (cVal * cVal) = 0 then Dbl.fin 0
       else if ops.sqrt (1 - x * x / (cVal * cVal)) = 0 then Dbl.fin 0
       else Dbl.fin (1 / ops.sqrt (1 - x * x / (cVal * cVal)))) := by
  have hcc : (cVal * cVal : ℚ) ≠ 0 := by norm_num [cVal]
  rcases lt_trichotomy (1 - x * x / (cVal * cVal)) 0 with h | h | h
  · simp [lorentzFactor, Dbl.beq, Dbl.mul, Dbl.div, Dbl.sub, Dbl.add, Dbl.neg,
      Dbl.sqrt, c, hx, hcc, ← sub_eq_add_neg, h]
  · simp [lorentzFactor, Dbl.beq, Dbl.mul, Dbl.div, Dbl.sub, Dbl.add, Dbl.neg,
      Dbl.sqrt, c, hx, hcc, ← sub_eq_add_neg, h]
  · by_cases hw : ops.sqrt (1 - x * x / (cVal * cVal)) = 0
    · simp [lorentzFactor, Dbl.beq, Dbl.mul, Dbl.div, Dbl.sub, Dbl.add, Dbl.neg,
        Dbl.sqrt, c, hx, hcc, ← sub_eq_add_neg, lt_asymm h, h.ne', hw]
    · simp [lorentzFactor, Dbl.beq, Dbl.mul, Dbl.div, Dbl.sub, Dbl.add, Dbl.neg,
        Dbl.sqrt, c, hx, hcc, ← sub_eq_add_neg, lt_asymm h, h.ne', hw]

/-- C1: `schwarzschildRadius` returns the zero sentinel for every finite
mass `M ≤ 0`, returns the exact value `(2 * universalGravitationConstant *
M) / (c * c)` for every finite mass `M > 0`, and on the infinite mass
`+Inf` likewise returns the value of that formula, `+Inf`. -/
theorem schwarzschildRadius_spec (m : ℚ) :
    (m ≤ 0 → schwarzschildRadius (.fin m) = .fin 0) ∧
    (0 < m → schwarzschildRadius (.fin m) = .fin (2 * gVal * m / (cVal * cVal))) ∧
    schwarzschildRadius .pinf = .pinf := by
  refine ⟨fun h => ?_, fun h => ?_, ?_⟩
  · simp [schwarzschildRadius, Dbl.ble, h]
  · norm_num [schwarzschildRadius, Dbl.ble, not_le.mpr h, Dbl.mul, Dbl.div, c,
      universalGravitationConstant, cVal, gVal]
  · norm_num [schwarzschildRadius, Dbl.ble, Dbl.mul, Dbl.div, c,
      universalGravitationConstant, cVal, gVal]

/-- Witness for C1: concrete evaluations at `M = -5` and `M = 5`. -/
theorem schwarzschildRadius_spec_wit :
    schwarzschildRadius (.fin (-5)) = .fin 0 ∧
    schwarzschildRadius (.fin 5) = .fin (2 * gVal * 5 / (cVal * cVal)) :=
  ⟨(schwarzschildRadius_spec (-5)).1 (by norm_num),
   (schwarzschildRadius_spec 5).2.1 (by norm_num)⟩

/-- C2: `photonEnergy` returns the zero sentinel for wavelength `0`, the
exact value `planckConstant * c / l` for every other finite wavelength, and
on the special values NaN, `+Inf`, `-Inf` also agrees with the IEEE value
of `planckConstant * c / l` (NaN, zero, zero respectively). -/
theorem photonEnergy_spec (l : ℚ) :
    (l = 0 → photonEnergy (.fin l) = .fin 0) ∧
    (l ≠ 0 → photonEnergy (.fin l) = .fin (hVal * cVal / l)) ∧
    photonEnergy .nan = .nan ∧
    photonEnergy .pinf = .fin 0 ∧
    photonEnergy .ninf = .fin 0 := by
  refine ⟨fun h => ?_, fun h => ?_, ?_, ?_, ?_⟩
  · simp [photonEnergy, Dbl.beq, h]
  · simp [photonEnergy, Dbl.beq, h, Dbl.mul, Dbl.div, planckConstant, c]
  · simp [photonEnergy, Dbl.beq, Dbl.mul, Dbl.div, planckConstant, c]
  · simp [photonEnergy, Dbl.beq, Dbl.mul, Dbl.div, planckConstant, c]
  · simp [photonEnergy, Dbl.beq, Dbl.mul, Dbl.div, planckConstant, c]

/-- Witness for C2: concrete evaluations at `l = 0` and `l = 4`. -/
theorem photonEnergy_spec_wit :
    photonEnergy (.fin 0) = .fin 0 ∧ photonEnergy (.fin 4) = .fin (hVal * cVal / 4) :=
  ⟨(photonEnergy_spec 0).1 rfl, (photonEnergy_spec 4).2.1 (by norm_num)⟩

/-- C3: `tsiolkovskyDeltaV` returns the zero sentinel whenever the final
mass is `0`, whatever the other two arguments are (NaN and infinities
included); and whenever the mass ratio `m0 / mf` is positive (the domain on
which `ln` is real-valued) it returns exactly `Ve * ln(m0 / mf)`. -/
theorem tsiolkovskyDeltaV_spec (ops : MathOps) :
    (∀ Ve m0 : Dbl, tsiolkovskyDeltaV ops Ve m0 (.fin 0) = .fin 0) ∧
    (∀ ve m0 mf : ℚ, 0 < m0 / mf →
      tsiolkovskyDeltaV ops (.fin ve) (.fin m0) (.fin mf) =
        .fin (ve * ops.log (m0 / mf))) := by
  constructor
  · intro Ve m0
    simp [tsiolkovskyDeltaV, Dbl.beq]
  · intro ve m0 mf hr
    have hmf : mf ≠ 0 := by
      intro h0
      rw [h0, div_zero] at hr
      exact lt_irrefl 0 hr
    simp [tsiolkovskyDeltaV, Dbl.beq, hmf, Dbl.div, Dbl.log, Dbl.mul,
      lt_asymm hr, hr.ne']

/-- Witness for C3: sentinel on NaN and infinite arguments with `mf = 0`,
and formula value at `(2, 6, 3)`. -/
theorem tsiolkovskyDeltaV_spec_wit :
    tsiolkovskyDeltaV opsQ .nan .pinf (.fin 0) = .fin 0 ∧
    tsiolkovskyDeltaV opsQ (.fin 2) (.fin 6) (.fin 3) = .fin (2 * opsQ.log (6 / 3)) :=
  ⟨(tsiolkovskyDeltaV_spec opsQ).1 .nan .pinf,
   (tsiolkovskyDeltaV_spec opsQ).2 2 6 3 (by norm_num)⟩

/-- C4: `lorentzFactor` at the speed of light returns exactly the zero
sentinel `0.0`, not a representation of infinity. -/
theorem lorentzFactor_at_c (ops : MathOps) :
    lorentzFactor ops c = .fin 0 ∧
    lorentzFactor ops c ≠ .pinf ∧ lorentzFactor ops c ≠ .ninf := by
  have h : lorentzFactor ops c = .fin 0 := by norm_num [lorentzFactor, Dbl.beq, c]
  refine ⟨h, ?_, ?_⟩ <;> rw [h] <;> intro h2 <;> exact Dbl.noConfusion h2

/-- C5: `thermalVelocityOfHeatedGas` returns the zero sentinel whenever the
temperature is finite and negative, or the gravity argument is zero, or the
molecular mass is zero — the remaining arguments being arbitrary doubles
(NaN and infinities included). -/
theorem thermalVelocityOfHeatedGas_guard (ops : MathOps) (g T m : Dbl)
    (h : (∃ t : ℚ, T = .fin t ∧ t < 0) ∨ g = .fin 0 ∨ m = .fin 0) :
    thermalVelocityOfHeatedGas ops g T m = .fin 0 := by
  have hg : (T.blt (.fin 0) || g.beq (.fin 0) || m.beq (.fin 0)) = true := by
    rcases h with ⟨t, rfl, ht⟩ | rfl | rfl
    · simp [Dbl.blt, ht]
    · simp [Dbl.beq]
    · simp [Dbl.beq]
  simp [thermalVelocityOfHeatedGas, hg]

/-- Witness for C5: concrete evaluation with `g = 0`. -/
theorem thermalVelocityOfHeatedGas_guard_wit :
    thermalVelocityOfHeatedGas opsQ (.fin 0) (.fin 1) (.fin 1) = .fin 0 :=
  thermalVelocityOfHeatedGas_guard opsQ (.fin 0) (.fin 1) (.fin 1) (Or.inr (Or.inl rfl))

/-- Counterexample for C6: a call can return NaN and a call can return an
infinity, so the two claimed outcomes (finite result or zero sentinel) are
not exhaustive — `lorentzFactor` at the superluminal speed `2c` takes the
square root of a negative number and the resulting NaN propagates to the
return value, and `tsiolkovskyDeltaV(1, 0, 1)` evaluates the unguarded
`math.Log(0/1) = -Inf` and returns `1 * -Inf = -Inf`. -/
theorem nonfinite_outcomes_exist :
    lorentzFactor opsQ (.fin (2 * cVal)) = .nan ∧
    tsiolkovskyDeltaV opsQ (.fin 1) (.fin 0) (.fin 1) = .ninf := by
  constructor
  · norm_num [lorentzFactor, Dbl.beq, Dbl.mul, Dbl.div, Dbl.sub, Dbl.add, Dbl.neg,
      Dbl.sqrt, c, cVal]
  · norm_num [tsiolkovskyDeltaV, Dbl.beq, Dbl.div, Dbl.log, Dbl.mul]

/-- C6 (amended): each of the seven formula functions is total and every
call returns a double, but the outcomes are of three kinds, not two: a
finite double, an infinity, or NaN.  The guarded zero sentinel is still
produced on every explicitly enumerated degenerate input set (final mass
zero; wavelength zero; negative temperature or zero gravity or zero
molecular mass; speed equal to c; zero electric constant; zero
perihelion divisor; nonpositive mass), and the infinite and NaN outcomes
genuinely occur — here from the unguarded `log(0)` and from a negative
`sqrt` argument, for every interpretation of the math primitives (float64
overflow on huge finite inputs is a further source of infinite results,
outside this exact-arithmetic model). -/
theorem formulas_outcome_taxonomy (ops : MathOps) :
    (∀ Ve m0 : Dbl, tsiolkovskyDeltaV ops Ve m0 (.fin 0) = .fin 0) ∧
    photonEnergy (.fin 0) = .fin 0 ∧
    (∀ g T m : Dbl, (∃ t : ℚ, T = .fin t ∧ t < 0) ∨ g = .fin 0 ∨ m = .fin 0 →
      thermalVelocityOfHeatedGas ops g T m = .fin 0) ∧
    lorentzFactor ops c = .fin 0 ∧
    (∀ q a : Dbl, abrahamLorentzForce ops q (.fin 0) a = .fin 0) ∧
    (∀ L T e : ℚ, T * T * (cVal * 1000) * (cVal * 1000) * (1 - e * e) = 0 →
      perihelionShift ops (.fin L) (.fin T) (.fin e) = .fin 0) ∧
    (∀ M : ℚ, M ≤ 0 → schwarzschildRadius (.fin M) = .fin 0) ∧
    tsiolkovskyDeltaV ops (.fin 1) (.fin 0) (.fin 1) = .ninf ∧
    lorentzFactor ops (.fin (2 * cVal)) = .nan := by
  refine ⟨?_, ?_, ?_, ?_, ?_, ?_, ?_, ?_, ?_⟩
  · intro Ve m0
    simp [tsiolkovskyDeltaV, Dbl.beq]
  · simp [photonEnergy, Dbl.beq]
  · intro g T m h
    have hg : (T.blt (.fin 0) || g.beq (.fin 0) || m.beq (.fin 0)) = true := by
      rcases h with ⟨t, rfl, ht⟩ | rfl | rfl
      · simp [Dbl.blt, ht]
      · simp [Dbl.beq]
      · simp [Dbl.beq]
    simp [thermalVelocityOfHeatedGas, hg]
  · norm_num [lorentzFactor, Dbl.beq, c]
  · intro q a
    simp [abrahamLorentzForce, Dbl.beq]
  · intro L T e hd
    simp [perihelionShift, Dbl.beq, Dbl.mul, Dbl.div, Dbl.sub, Dbl.add, Dbl.neg,
      c, ← sub_eq_add_neg, hd]
  · intro M hM
    simp [schwarzschildRadius, Dbl.ble, hM]
  · norm_num [tsiolkovskyDeltaV, Dbl.beq, Dbl.div, Dbl.log, Dbl.mul]
  · norm_num [lorentzFactor, Dbl.beq, Dbl.mul, Dbl.div, Dbl.sub, Dbl.add, Dbl.neg,
      Dbl.sqrt, c, cVal]

/-- Witness for the amended C6: the zero sentinel at concrete degenerate
inputs of the three guard conjuncts that carry hypotheses. -/
theorem formulas_outcome_taxonomy_wit :
    thermalVelocityOfHeatedGas opsQ (.fin 0) (.fin 2) (.fin 2) = .fin 0 ∧
    perihelionShift opsQ (.fin 1) (.fin 0) (.fin 1) = .fin 0 ∧
    schwarzschildRadius (.fin (-3)) = .fin 0 :=
  ⟨(formulas_outcome_taxonomy opsQ).2.2.1 (.fin 0) (.fin 2) (.fin 2)
     (Or.inr (Or.inl rfl)),
   (formulas_outcome_taxonomy opsQ).2.2.2.2.2.1 1 0 1 (by norm_num),
   (formulas_outcome_taxonomy opsQ).2.2.2.2.2.2.1 (-3) (by norm_num)⟩

/-- C9: `lorentzFactor` is an even function on every non-NaN double; in
particular `lorentzFactor (-c)` misses the `v == c` guard (the equality
test is false) yet still returns `0.0`, through the `sqrtFactor == 0.0`
guard. -/
theorem lorentzFactor_even (ops : MathOps) :
    (∀ v : Dbl, v ≠ .nan → lorentzFactor ops v.neg = lorentzFactor ops v) ∧
    Dbl.beq (Dbl.neg c) c = false ∧
    lorentzFactor ops (Dbl.neg c) = .fin 0 := by
  have hnc : (-cVal : ℚ) ≠ cVal := by norm_num [cVal]
  have hneg : Dbl.beq (Dbl.neg c) c = false := by
    simp [Dbl.beq, Dbl.neg, c, hnc]
  have hnegc : lorentzFactor ops (Dbl.neg c) = .fin 0 := by
    have h : Dbl.neg c = .fin (-cVal) := by simp [Dbl.neg, c]
    rw [h, lorentzFactor_fin_eval ops (-cVal) hnc]
    norm_num [cVal]
  refine ⟨?_, hneg, hnegc⟩
  intro v hv
  cases v with
  | nan => exact absurd rfl hv
  | pinf =>
      have hge : (0 : ℚ) ≤ cVal * cVal := by norm_num [cVal]
      simp [lorentzFactor, Dbl.neg, Dbl.beq, Dbl.mul, Dbl.div, Dbl.sub, Dbl.add,
        Dbl.sqrt, c, hge]
  | ninf =>
      have hge : (0 : ℚ) ≤ cVal * cVal := by norm_num [cVal]
      simp [lorentzFactor, Dbl.neg, Dbl.beq, Dbl.mul, Dbl.div, Dbl.sub, Dbl.add,
        Dbl.sqrt, c, hge]
  | fin q =>
      by_cases h1 : q = cVal
      · subst h1
        rw [show Dbl.neg (Dbl.fin cVal) = Dbl.neg c from rfl, hnegc]
        simp [lorentzFactor, Dbl.beq, c]
      · by_cases h2 : q = -cVal
        · subst h2
          have hL : Dbl.neg (Dbl.fin (-cVal)) = Dbl.fin cVal := by simp [Dbl.neg]
          rw [hL]
          have hR : lorentzFactor ops (Dbl.fin (-cVal)) = .fin 0 := by
            rw [lorentzFactor_fin_eval ops (-cVal) hnc]
            norm_num [cVal]
          rw [hR]
          simp [lorentzFactor, Dbl.beq, c]
        · have h2n : (-q : ℚ) ≠ cVal := fun h => h2 (by linarith)
          have hL : Dbl.neg (Dbl.fin q) = Dbl.fin (-q) := by simp [Dbl.neg]
          rw [hL, lorentzFactor_fin_eval ops (-q) h2n, lorentzFactor_fin_eval ops q h1,
            neg_mul_neg]

/-- Witness for C9: evenness applied at the concrete non-NaN input `1`. -/
theorem lorentzFactor_even_wit :
    lorentzFactor opsQ (Dbl.neg (.fin 1)) = lorentzFactor opsQ (.fin 1) :=
  (lorentzFactor_even opsQ).1 (.fin 1) (by simp)

/-- C10: the `M <= 0.0` guard of `schwarzschildRadius` does not intercept
NaN (the IEEE comparison is false on NaN), so the arithmetic proceeds and
the function returns NaN, not the zero sentinel. -/
theorem schwarzschildRadius_nan :
    schwarzschildRadius .nan = .nan ∧ schwarzschildRadius .nan ≠ .fin 0 := by
  have h : schwarzschildRadius .nan = .nan := by
    norm_num [schwarzschildRadius, Dbl.ble, Dbl.mul, Dbl.div, c,
      universalGravitationConstant]
  refine ⟨h, ?_⟩
  rw [h]
  intro h2
  exact Dbl.noConfusion h2

set_option maxRecDepth 40000 in
/-- Counterexample for C7: three entries of the constants table are not the
IEEE-754 double nearest to the spec's decimal literal.  The code computes
them as `mantissa * math.Pow(10, exponent)`, and the rounding of
`math.Pow` plus the final product lands one unit in the last place away
from the correctly rounded decimal in each of these cases. -/
theorem constants_not_nearest_double :
    FP.boltzmannConstantJoulesF ≠ FP.decLit 138064852 31 ∧
    FP.boltzmannConstantEvF ≠ FP.decLit 86173303 12 ∧
    FP.vacuumPermittivityF ≠ FP.decLit 8854187817 21 := by decide

set_option maxRecDepth 40000 in
/-- C7 (amended): `secondsInADay`, `c` and `universalGravitationConstant`
are plain literals and hold the exact doubles of the spec table;
`planckConstant` and `massOfTheEarth`, though computed as
`mantissa * math.Pow(10, exponent)`, also land exactly on the nearest
double to their decimal literals; but `boltzmannConstantJoules`,
`boltzmannConstantEv` and `vacuumPermittivity` land one unit in the last
place away from the nearest double (one ulp above, above, and below,
respectively). -/
theorem constantsTable_values :
    FP.secondsInADayF = (86400 * 2 ^ 36, -36) ∧
    FP.cF = (299792458 * 2 ^ 24, -24) ∧
    FP.universalGravitationConstantF = FP.decLit 667408 16 ∧
    FP.planckConstantF = FP.decLit 6626069934 43 ∧
    FP.massOfTheEarthF = FP.mkD (597237 * 10 ^ 19) ∧
    FP.boltzmannConstantJoulesF =
      ((FP.decLit 138064852 31).1 + 1, (FP.decLit 138064852 31).2) ∧
    FP.boltzmannConstantEvF =
      ((FP.decLit 86173303 12).1 + 1, (FP.decLit 86173303 12).2) ∧
    FP.vacuumPermittivityF =
      ((FP.decLit 8854187817 21).1 - 1, (FP.decLit 8854187817 21).2) := by decide

set_option maxRecDepth 40000 in
/-- C8: the exact binary64 evaluation of
`perihelionShift(57909050.0, 47.362, 0.205630) * secondsInADay * 59.0`
(with the untyped-constant prefix `24 * math.Pi^3` folded at compile time,
as Go does) equals bit-for-bit the double nearest to
`0.065884179454766778`. -/
theorem perihelionShift_test_value :
    FP.perihelionTestF = FP.decLit 65884179454766778 18 := by decide

end Goplex
